import Mathlib

/-
  Verification of the psqlpack schema-package pipeline.

  Shallow embedding of:
    - src/psqlpack/src/model/package.rs  (Package, set_defaults,
      generate_dependency_graph, the GenerateDependencyGraph impls,
      write_to / from_path, validate)
    - src/src/gen.rs                     (Dacpac::package_project,
      Project::generate_changeset and friends)
    - src/psqlpack/src/errors.rs         (the error kinds used above)

  The sql AST types, the graph module (DependencyGraph / Node / Edge /
  ValidationResult) and the Project type are referenced by the sources but
  their files are not part of the repository snapshot; they are modelled
  from the specification and marked as such in their doc comments.
-/

namespace Psqlpack

/-- Modelled from the spec: the sql AST module is not under src/.  A
qualified name is the pair `(schema, local)`; `schema` may be absent at
parse time (spec section 3). -/
structure ObjectName where
  schema : Option String
  name : String
deriving DecidableEq, Repr

/-- Modelled from the spec: Display of a qualified name, `schema.local`
when the schema is present, bare `local` otherwise. -/
def ObjectName.toStr : ObjectName → String
  | { schema := some s, name := n } => s ++ ("." ++ n)
  | { schema := none, name := n } => n

/-- Modelled from the spec: a column owned by a table (spec section 3). -/
structure ColumnDefinition where
  name : String
  sql_type : String
  nullable : Bool
  default_value : Option String
deriving DecidableEq, Repr

/-- Modelled from the spec: table constraints.  The source only ever
matches the `Primary` and `Foreign` variants (package.rs line 303:
"We currently have two types of table constraints"). -/
inductive TableConstraint where
  | Primary (name : String) (columns : List String) (parameters : Option (List String))
  | Foreign (name : String) (columns : List String) (ref_table : ObjectName)
      (ref_columns : List String) (on_delete : Option String) (on_update : Option String)
deriving DecidableEq, Repr

/-- Modelled from the spec: a table entity (spec section 3).  The source
accesses `name.schema`, `columns` and the optional `constraints`. -/
structure TableDefinition where
  name : ObjectName
  columns : List ColumnDefinition
  constraints : Option (List TableConstraint)
deriving DecidableEq, Repr

/-- Modelled from the spec: a function entity (spec section 3). -/
structure FunctionDefinition where
  name : ObjectName
  arguments : List String
  return_type : String
  language : String
  body : String
deriving DecidableEq, Repr

/-- A schema entity; the source constructs `SchemaDefinition { name }`. -/
structure SchemaDefinition where
  name : String
deriving DecidableEq, Repr

/-- Modelled from the spec: a named database extension (spec section 3). -/
structure ExtensionDefinition where
  name : String
deriving DecidableEq, Repr

/-- Modelled from the spec: the stage of a deploy script. -/
inductive ScriptStage where
  | pre
  | post
deriving DecidableEq, Repr

/-- Modelled from the spec: a free-form deploy script (spec section 3). -/
structure ScriptDefinition where
  name : String
  stage : ScriptStage
  contents : String
deriving DecidableEq, Repr

/-- Modelled from the spec: the kind of a custom type (spec section 3). -/
inductive TypeKind where
  | enum (values : List String)
  | composite (fields : List String)
  | alias (base : String)
  | domain (base : String)
deriving DecidableEq, Repr

/-- Modelled from the spec: a custom type entity (spec section 3). -/
structure TypeDefinition where
  name : ObjectName
  kind : TypeKind
deriving DecidableEq, Repr

/-- Modelled from the spec: the project manifest; the source only reads
`project.default_schema` (spec section 6.1). -/
structure Project where
  default_schema : String
deriving DecidableEq, Repr

/-- The error kinds of errors.rs that the embedded code paths construct. -/
inductive PsqlpackError where
  | IOError (file : String) (message : String)
  | FormatError (file : String) (message : String)
  | GenerationError (message : String)
  | PackageInternalReadError (file_name : String)
  | ProjectError (message : String)
  | DatabaseError (message : String)
deriving DecidableEq, Repr

/- ### The dependency graph

The graph module is referenced (`use graph::{DependencyGraph, Node, Edge,
ValidationResult}`) but its file is not part of the repository snapshot;
everything in this section is modelled from spec section 4.3. -/

/-- Graph node identities (spec section 4.3).  The source constructs the
`Table`, `Column`, `Constraint` and `Function` variants; `Ty` stands for
the spec's `Type` variant. -/
inductive Node where
  | Schema (name : String)
  | Extension (name : String)
  | Ty (name : String)
  | Table (name : String)
  | Column (name : String)
  | Constraint (name : String)
  | Function (name : String)
deriving DecidableEq, Repr

/-- Modelled from the spec: a weighted edge "source depends on destination
with cost w".  Weights 1.0 / 1.1 are carried in tenths (10 / 11) so that
arithmetic stays exact. -/
structure GEdge where
  src : Node
  dst : Node
  weight : Nat
deriving DecidableEq, Repr

/-- Modelled from the spec: the graph holds nodes by value and edges as
pairs of node identities (spec section 9, "Graph ownership"). -/
structure DependencyGraph where
  nodes : List Node
  edges : List GEdge
deriving DecidableEq, Repr

def DependencyGraph.new : DependencyGraph := { nodes := [], edges := [] }

/-- Modelled from the spec: node insertion; nodes are held by identity, so
re-adding an existing node is a no-op. -/
def DependencyGraph.add_node (g : DependencyGraph) (n : Node) : DependencyGraph :=
  if n ∈ g.nodes then g else { g with nodes := g.nodes ++ [n] }

/-- Modelled from the spec: append the edge `src -> dst` with weight `w`
(tenths). -/
def DependencyGraph.add_edge (g : DependencyGraph) (src dst : Node) (w : Nat) :
    DependencyGraph :=
  { g with edges := g.edges ++ [{ src := src, dst := dst, weight := w }] }

/-- Modelled from the spec: validation outcomes (spec section 4.3).  The
caller in package.rs matches `UnresolvedDependencies` without a payload, so
it is a unit variant. -/
inductive ValidationResult where
  | Valid
  | CircularReference
  | UnresolvedDependencies
deriving DecidableEq, Repr

/-- Successors of a node along the edge list. -/
def DependencyGraph.succs (g : DependencyGraph) (v : Node) : List Node :=
  g.edges.filterMap (fun e => if e.src = v then some e.dst else none)

/-- Append the elements of `xs` that are not already in `acc`. -/
def addNew (acc : List Node) (xs : List Node) : List Node :=
  xs.foldl (fun a x => if x ∈ a then a else a ++ [x]) acc

/-- Concatenation of the images of a list under a list-valued function. -/
def concatMap (f : α → List β) : List α → List β
  | [] => []
  | x :: xs => f x ++ concatMap f xs

/-- Saturate a reachable set along edges, with fuel. -/
def DependencyGraph.reachSet (g : DependencyGraph) : Nat → List Node → List Node
  | 0, acc => acc
  | fuel + 1, acc =>
      let nxt := addNew acc (concatMap g.succs acc)
      if nxt.length = acc.length then acc else g.reachSet fuel nxt

/-- Nodes reachable from `v` in one or more steps. -/
def DependencyGraph.reachableFrom (g : DependencyGraph) (v : Node) : List Node :=
  g.reachSet (2 * g.edges.length + 1) (g.succs v)

/-- Modelled from the spec: cycle detection — some node reaches itself
through one or more edges (spec section 4.3 detects this with a
depth-first coloring; the reachability formulation is its semantics). -/
def DependencyGraph.hasCycleB (g : DependencyGraph) : Bool :=
  g.edges.any (fun e => decide (e.src ∈ g.reachableFrom e.src))

/-- Modelled from the spec: an unresolved dependency is an edge whose
destination node was never added (spec section 4.3). -/
def DependencyGraph.unresolvedB (g : DependencyGraph) : Bool :=
  g.edges.any (fun e => decide (e.dst ∉ g.nodes))

/-- Modelled from the spec: validation returns `CircularReference` on a
cycle, `UnresolvedDependencies` when an edge destination was never added,
and `Valid` otherwise (spec section 4.3). -/
def DependencyGraph.validate (g : DependencyGraph) : ValidationResult :=
  if g.hasCycleB then .CircularReference
  else if g.unresolvedB then .UnresolvedDependencies
  else .Valid

/-- Tag used for the lexicographic tie-break over node identities,
following the variant order of spec section 4.3. -/
def nodeTag : Node → Nat
  | .Schema _ => 0
  | .Extension _ => 1
  | .Ty _ => 2
  | .Table _ => 3
  | .Column _ => 4
  | .Constraint _ => 5
  | .Function _ => 6

/-- The string payload of a node identity. -/
def nodeStr : Node → String
  | .Schema s => s
  | .Extension s => s
  | .Ty s => s
  | .Table s => s
  | .Column s => s
  | .Constraint s => s
  | .Function s => s

/-- Lexicographic order on character lists by code point. -/
def listCharLt : List Char → List Char → Bool
  | [], [] => false
  | [], _ :: _ => true
  | _ :: _, [] => false
  | a :: as, b :: bs =>
      if a.toNat < b.toNat then true
      else if b.toNat < a.toNat then false
      else listCharLt as bs

/-- Total weight of the edges committed to `v` (edges whose destination is
`v`). -/
def DependencyGraph.inWeight (g : DependencyGraph) (v : Node) : Nat :=
  g.edges.foldl (fun acc e => if e.dst = v then acc + e.weight else acc) 0

/-- A node is ready once every edge out of it points at an emitted node. -/
def readyB (g : DependencyGraph) (emitted : List Node) (v : Node) : Bool :=
  g.edges.all (fun e => !(decide (e.src = v)) || decide (e.dst ∈ emitted))

/-- Modelled from the spec: the tie-break between candidates — ascending
committed edge-weight sum, then lexicographic node identity (spec section
4.3, "Topological sort"). -/
def keyLtB (g : DependencyGraph) (a b : Node) : Bool :=
  decide (g.inWeight a < g.inWeight b) ||
    (decide (g.inWeight a = g.inWeight b) &&
      (decide (nodeTag a < nodeTag b) ||
        (decide (nodeTag a = nodeTag b) && listCharLt (nodeStr a).data (nodeStr b).data)))

/-- The minimal candidate under the tie-break key. -/
def pickMin (g : DependencyGraph) (c : Node) (cs : List Node) : Node :=
  cs.foldl (fun best v => if keyLtB g v best then v else best) c

/-- One round after another of Kahn's algorithm, with fuel. -/
def sortGo (g : DependencyGraph) : Nat → List Node → List Node → List Node
  | 0, _, emitted => emitted
  | fuel + 1, remaining, emitted =>
      match remaining.filter (readyB g emitted) with
      | [] => emitted
      | c :: cs =>
          let pick := pickMin g c cs
          sortGo g fuel (remaining.filter (fun v => decide (v ≠ pick))) (emitted ++ [pick])

/-- Modelled from the spec: deterministic topological sort by Kahn's
algorithm — repeatedly extract the ready node that minimizes the tie-break
key, so that for every edge the destination is emitted before the source
(spec section 4.3, "Topological sort"). -/
def DependencyGraph.topological_sort (g : DependencyGraph) : List Node :=
  sortGo g g.nodes.length g.nodes []

/- ### The Package and its operations (package.rs) -/

/-- The Package of package.rs: kind-indexed entity collections plus the
optional build order. -/
structure Package where
  extensions : List ExtensionDefinition
  functions : List FunctionDefinition
  schemas : List SchemaDefinition
  scripts : List ScriptDefinition
  tables : List TableDefinition
  types : List TypeDefinition
  order : Option (List Node)
deriving DecidableEq, Repr

def Package.new : Package :=
  { extensions := [], functions := [], schemas := [], scripts := [],
    tables := [], types := [], order := none }

/-- ASCII lower-casing of a character, as Rust's `to_ascii_lowercase`. -/
def asciiLower (c : Char) : Char :=
  if 'A' ≤ c && c ≤ 'Z' then Char.ofNat (c.toNat + 32) else c

/-- Rust's `str::eq_ignore_ascii_case`. -/
def eqIgnoreAsciiCase (a b : String) : Bool :=
  decide (a.data.map asciiLower = b.data.map asciiLower)

/-- One constraint of `set_defaults`'s inner loop: a `Foreign` constraint
whose `ref_table` lacks a schema gets the project default. -/
def setConstraintDefault (d : String) : TableConstraint → TableConstraint
  | .Foreign n cols rt rcols od ou =>
      match rt.schema with
      | none => .Foreign n cols { schema := some d, name := rt.name } rcols od ou
      | some _ => .Foreign n cols rt rcols od ou
  | c => c

/-- One table of `set_defaults`'s loop: an absent table schema gets the
project default, and so does each `Foreign.ref_table` lacking one. -/
def setTableDefaults (d : String) (t : TableDefinition) : TableDefinition :=
  let t :=
    match t.name.schema with
    | none => { t with name := { schema := some d, name := t.name.name } }
    | some _ => t
  { t with constraints := t.constraints.map (fun cs => cs.map (setConstraintDefault d)) }

/-- `Package::set_defaults` (package.rs lines 190-220): ensure a `public`
schema exists (ASCII-case-insensitively), then default the schema of each
table and of each `Foreign.ref_table`. -/
def Package.set_defaults (p : Package) (project : Project) : Package :=
  let has_public := p.schemas.any (fun s => eqIgnoreAsciiCase "public" s.name)
  let schemas := if has_public then p.schemas else p.schemas ++ [{ name := "public" }]
  { p with
    schemas := schemas,
    tables := p.tables.map (setTableDefaults project.default_schema) }

/-- `GenerateDependencyGraph for ColumnDefinition` (package.rs lines
282-289): add the column node named `parent.column`. -/
def ColumnDefinition.generate_dependencies (c : ColumnDefinition)
    (g : DependencyGraph) (parent : String) : Node × DependencyGraph :=
  let column_node := Node.Column (parent ++ ("." ++ c.name))
  (column_node, g.add_node column_node)

/-- `GenerateDependencyGraph for TableConstraint` (package.rs lines
301-335): a `Primary` constraint depends on each of its columns with
weight 1.0; a `Foreign` constraint depends on each local column with
weight 1.0 and on each referenced column of the referenced table with
weight 1.1. -/
def TableConstraint.generate_dependencies (tc : TableConstraint)
    (g : DependencyGraph) (table : String) : Node × DependencyGraph :=
  match tc with
  | .Primary name columns _ =>
      let node := Node.Constraint (table ++ ("." ++ name))
      let g := g.add_node node
      let g := columns.foldl
        (fun g c => g.add_edge node (Node.Column (table ++ ("." ++ c))) 10) g
      (node, g)
  | .Foreign name columns ref_table ref_columns _ _ =>
      let node := Node.Constraint (table ++ ("." ++ name))
      let g := g.add_node node
      let g := columns.foldl
        (fun g c => g.add_edge node (Node.Column (table ++ ("." ++ c))) 10) g
      let g := ref_columns.foldl
        (fun g c => g.add_edge node (Node.Column (ref_table.toStr ++ ("." ++ c))) 11) g
      (node, g)

/-- `GenerateDependencyGraph for TableDefinition` (package.rs lines
260-280): add the table node, then each column node with an edge
column -> table of weight 1.0, then each constraint with its own edges and
an edge constraint -> table of weight 1.0.  No `Schema` node and no edge
to one is added. -/
def TableDefinition.generate_dependencies (t : TableDefinition)
    (g : DependencyGraph) : Node × DependencyGraph :=
  let full_name := t.name.toStr
  let table_node := Node.Table full_name
  let g := g.add_node table_node
  let g := t.columns.foldl (fun g column =>
      let cg := column.generate_dependencies g full_name
      cg.2.add_edge cg.1 table_node 10) g
  let g :=
    match t.constraints with
    | none => g
    | some cs => cs.foldl (fun g constraint =>
        let kg := constraint.generate_dependencies g full_name
        kg.2.add_edge kg.1 table_node 10) g
  (table_node, g)

/-- `GenerateDependencyGraph for FunctionDefinition` (package.rs lines
291-299): only the function node is added. -/
def FunctionDefinition.generate_dependencies (f : FunctionDefinition)
    (g : DependencyGraph) : Node × DependencyGraph :=
  let function_node := Node.Function f.name.toStr
  (function_node, g.add_node function_node)

/-- The graph built by `Package::generate_dependency_graph` (package.rs
lines 222-233): every table, then every function, contributes its
dependencies; extensions, schemas and types are never added. -/
def Package.packageGraph (p : Package) : DependencyGraph :=
  let g := p.tables.foldl (fun g t => (t.generate_dependencies g).2) DependencyGraph.new
  p.functions.foldl (fun g f => (f.generate_dependencies g).2) g

/-- `Package::generate_dependency_graph` (package.rs lines 222-247),
with the `&mut self` receiver made explicit: the pair is (the `Result`,
the package afterwards).  On `Valid` the topological order is stored; on
either validation failure the method bails with a `GenerationError` and
the package is left as it was. -/
def Package.generate_dependency_graph (p : Package) :
    Except PsqlpackError Unit × Package :=
  let graph := p.packageGraph
  match graph.validate with
  | .Valid => (.ok (), { p with order := some graph.topological_sort })
  | .CircularReference =>
      (.error (.GenerationError "Circular reference detected"), p)
  | .UnresolvedDependencies =>
      (.error (.GenerationError "Unresolved dependencies detected"), p)

/-- `Package::validate` (package.rs lines 249-252): the body is a stub
that returns `Ok(())` under a TODO comment. -/
def Package.validate (_ : Package) : Except PsqlpackError Unit := .ok ()

/- ### The package artifact (write_to / from_path, package.rs)

The zip container and the serde JSON codec are external crates; an archive
is modelled as its ordered entry list, an entry's JSON payload as the
typed value it decodes to (serde round-trips derived types), and a
directory entry as a zero-size entry. -/

/-- The decoded payload of an archive entry.  `empty` stands for a
zero-size entry (a directory marker); every data payload carries the
typed value its pretty-printed JSON deserializes to. -/
inductive EntryContent where
  | empty
  | ext (e : ExtensionDefinition)
  | fn (f : FunctionDefinition)
  | sch (s : SchemaDefinition)
  | scr (s : ScriptDefinition)
  | tab (t : TableDefinition)
  | typ (t : TypeDefinition)
  | ord (o : List Node)
deriving DecidableEq, Repr

/-- One entry of the archive: its path inside the container and its
payload. -/
structure ArchiveEntry where
  ename : String
  content : EntryContent
deriving DecidableEq, Repr

/-- `file.size() == 0` of from_path: only directory markers are
zero-size. -/
def ArchiveEntry.isEmptyEntry (e : ArchiveEntry) : Bool :=
  match e.content with
  | .empty => true
  | _ => false

/-- Rust's `str::starts_with` over the character data. -/
def strStartsWith (s pre : String) : Bool :=
  List.isPrefixOf pre.data s.data

/-- `Package::write_to` (package.rs lines 125-152): for each collection in
the fixed order extensions, functions, schemas, scripts, tables, types,
write a directory marker and then one `{collection}/{name}.json` entry per
item; finally `order.json` when the order is present. -/
def Package.write_to (p : Package) : List ArchiveEntry :=
  [{ ename := "extensions/", content := .empty }] ++
    p.extensions.map (fun e =>
      { ename := "extensions/" ++ (e.name ++ ".json"), content := .ext e }) ++
  ([{ ename := "functions/", content := .empty }] ++
    p.functions.map (fun f =>
      { ename := "functions/" ++ (f.name.toStr ++ ".json"), content := .fn f }) ++
  ([{ ename := "schemas/", content := .empty }] ++
    p.schemas.map (fun s =>
      { ename := "schemas/" ++ (s.name ++ ".json"), content := .sch s }) ++
  ([{ ename := "scripts/", content := .empty }] ++
    p.scripts.map (fun s =>
      { ename := "scripts/" ++ (s.name ++ ".json"), content := .scr s }) ++
  ([{ ename := "tables/", content := .empty }] ++
    p.tables.map (fun t =>
      { ename := "tables/" ++ (t.name.toStr ++ ".json"), content := .tab t }) ++
  ([{ ename := "types/", content := .empty }] ++
    p.types.map (fun t =>
      { ename := "types/" ++ (t.name.toStr ++ ".json"), content := .typ t }) ++
  (match p.order with
   | none => []
   | some o => [{ ename := "order.json", content := .ord o }]))))))

/-- The mutable collection state of `Package::from_path`'s reading loop. -/
structure ReadState where
  extensions : List ExtensionDefinition
  functions : List FunctionDefinition
  schemas : List SchemaDefinition
  scripts : List ScriptDefinition
  tables : List TableDefinition
  types : List TypeDefinition
  order : Option (List Node)
deriving DecidableEq, Repr

def ReadState.init : ReadState :=
  { extensions := [], functions := [], schemas := [], scripts := [],
    tables := [], types := [], order := none }

/-- One iteration of `Package::from_path`'s loop (package.rs lines
76-112): skip zero-size entries, dispatch on the path prefix in source
order, push the decoded value, and fail with `PackageInternalReadError`
when the payload does not decode as the expected type; entries matching no
prefix are ignored. -/
def readEntry (acc : ReadState) (e : ArchiveEntry) : Except PsqlpackError ReadState :=
  if e.isEmptyEntry then .ok acc
  else if strStartsWith e.ename "extensions/" then
    match e.content with
    | .ext x => .ok { acc with extensions := acc.extensions ++ [x] }
    | _ => .error (.PackageInternalReadError e.ename)
  else if strStartsWith e.ename "functions/" then
    match e.content with
    | .fn x => .ok { acc with functions := acc.functions ++ [x] }
    | _ => .error (.PackageInternalReadError e.ename)
  else if strStartsWith e.ename "schemas/" then
    match e.content with
    | .sch x => .ok { acc with schemas := acc.schemas ++ [x] }
    | _ => .error (.PackageInternalReadError e.ename)
  else if strStartsWith e.ename "scripts/" then
    match e.content with
    | .scr x => .ok { acc with scripts := acc.scripts ++ [x] }
    | _ => .error (.PackageInternalReadError e.ename)
  else if strStartsWith e.ename "tables/" then
    match e.content with
    | .tab x => .ok { acc with tables := acc.tables ++ [x] }
    | _ => .error (.PackageInternalReadError e.ename)
  else if strStartsWith e.ename "types/" then
    match e.content with
    | .typ x => .ok { acc with types := acc.types ++ [x] }
    | _ => .error (.PackageInternalReadError e.ename)
  else if e.ename = "order.json" then
    match e.content with
    | .ord o => .ok { acc with order := some o }
    | _ => .error (.PackageInternalReadError e.ename)
  else .ok acc

/-- Fold the reading loop over the entries. -/
def readEntries (acc : ReadState) : List ArchiveEntry → Except PsqlpackError ReadState
  | [] => .ok acc
  | e :: es =>
      match readEntry acc e with
      | .ok acc => readEntries acc es
      | .error err => .error err

/-- `Package::from_path` (package.rs lines 59-123) on an already-opened
archive: run the reading loop and assemble the Package. -/
def Package.from_archive (entries : List ArchiveEntry) : Except PsqlpackError Package :=
  match readEntries ReadState.init entries with
  | .ok acc =>
      .ok { extensions := acc.extensions, functions := acc.functions,
            schemas := acc.schemas, scripts := acc.scripts,
            tables := acc.tables, types := acc.types, order := acc.order }
  | .error e => .error e

/- ### The prototype assembler and planner (src/src/gen.rs)

gen.rs has its own Project, ProjectConfig, PublishProfile and error type,
distinct from the psqlpack model above. -/

/-- The errors of gen.rs (`DacpacError`).  A lalrpop parse error is
carried as its rendered description. -/
inductive DacpacError where
  | IOError (file : String) (message : String)
  | SyntaxError (file : String) (line : String) (line_number : Int)
      (start_pos : Int) (end_pos : Int)
  | ParseError (file : String) (errors : List String)
  | GenerationError (message : String)
  | FormatError (file : String) (message : String)
  | InvalidConnectionString (message : String)
  | DatabaseError (message : String)
deriving DecidableEq, Repr

/-- Modelled from the spec: gen.rs's ast `Statement` — the assembler's
match on it is exhaustive with the single arm `Statement::Table`. -/
inductive GenStatement where
  | Table (t : TableDefinition)
deriving DecidableEq, Repr

/-- Modelled from the spec: what lexing then parsing one source file
yields (spec sections 4.1-4.2) — an IO failure, a lexical error with its
position data, parse errors, or the statement list. -/
inductive FileOutcome where
  | ioError (message : String)
  | lexError (line : String) (line_number : Int) (start_pos : Int) (end_pos : Int)
  | parseFail (errors : List String)
  | parsed (statements : List GenStatement)
deriving DecidableEq, Repr

/-- One file met by the directory walk: its path, its extension (as
Rust's `Path::extension`), and what processing it yields. -/
structure SourceFile where
  path : String
  ext : Option String
  outcome : FileOutcome
deriving DecidableEq, Repr

/-- gen.rs's `ProjectConfig`: the deserialized project manifest. -/
structure ProjectConfig where
  default_schema : String
deriving DecidableEq, Repr

/-- gen.rs's `Project`: just the table list. -/
structure GenProject where
  tables : List TableDefinition
deriving DecidableEq, Repr

def GenProject.push_table (p : GenProject) (t : TableDefinition) : GenProject :=
  { tables := p.tables ++ [t] }

/-- gen.rs's `Project::set_defaults` (lines 436-444): default the schema
of each table; nothing else. -/
def GenProject.set_defaults (p : GenProject) (config : ProjectConfig) : GenProject :=
  { tables := p.tables.map (fun t =>
      match t.name.schema with
      | none => { t with name := { schema := some config.default_schema, name := t.name.name } }
      | some _ => t) }

/-- gen.rs's `PublishProfile`: only a version string. -/
structure GenPublishProfile where
  version : String
deriving DecidableEq, Repr

/-- gen.rs's `ConnectionString`. -/
structure ConnectionString where
  database : Option String
  host : Option String
  user : Option String
  password : Option String
  tls_mode : Bool
deriving DecidableEq, Repr

/-- gen.rs's `ChangeInstruction` (lines 462-469). -/
inductive ChangeInstruction where
  | AddTable (t : TableDefinition)
  | RemoveTable
  | AddColumn
  | ModifyColumn
  | RemoveColumn
deriving DecidableEq, Repr

/-- gen.rs's `Project::generate_changeset` (lines 452-454): the body
ignores the project, the connection and the profile and returns the
single placeholder instruction `AddColumn`. -/
def GenProject.generate_changeset (_ : GenProject) (_ : ConnectionString)
    (_ : GenPublishProfile) : Except (List DacpacError) (List ChangeInstruction) :=
  .ok [ChangeInstruction.AddColumn]

/-- One iteration of `Dacpac::package_project`'s file loop (gen.rs lines
64-111): skip files whose extension is not `sql`; on an IO, lexical or
parse failure record the corresponding `DacpacError` and continue; on
success push every parsed table. -/
def processFile (st : GenProject × List DacpacError) (f : SourceFile) :
    GenProject × List DacpacError :=
  if f.ext ≠ some "sql" then st
  else
    match f.outcome with
    | .ioError m => (st.1, st.2 ++ [.IOError f.path m])
    | .lexError line ln sp ep => (st.1, st.2 ++ [.SyntaxError f.path line ln sp ep])
    | .parseFail es => (st.1, st.2 ++ [.ParseError f.path es])
    | .parsed stmts =>
        (stmts.foldl (fun pr s =>
            match s with
            | .Table t => pr.push_table t) st.1,
         st.2)

/-- `Dacpac::package_project` (gen.rs lines 40-151) after the manifest has
been read: walk the files accumulating tables and errors; if any errors
were collected return them all and write nothing; otherwise apply
`set_defaults`, `validate` (a stub returning Ok) and emit one
`tables/{name}.json` artifact entry per table. -/
def Dacpac.package_project (files : List SourceFile) (config : ProjectConfig) :
    Except (List DacpacError) (List (String × TableDefinition)) :=
  let st := files.foldl processFile ({ tables := [] }, [])
  if st.2.isEmpty then
    let project := st.1.set_defaults config
    .ok (project.tables.map (fun t =>
      ("tables/" ++ (t.name.toStr ++ ".json"), t)))
  else
    .error st.2

/-- The errors the loop records for one file (none for a skipped or
successfully parsed file). -/
def fileErrors (f : SourceFile) : List DacpacError :=
  if f.ext ≠ some "sql" then []
  else
    match f.outcome with
    | .ioError m => [.IOError f.path m]
    | .lexError line ln sp ep => [.SyntaxError f.path line ln sp ep]
    | .parseFail es => [.ParseError f.path es]
    | .parsed _ => []

/-- The tables the loop collects from one file. -/
def fileTables (f : SourceFile) : List TableDefinition :=
  if f.ext ≠ some "sql" then []
  else
    match f.outcome with
    | .parsed stmts => stmts.map (fun s => match s with | .Table t => t)
    | _ => []

/-- Concatenation of a per-file observation over a file list, in file
order. -/
def collectAll {α : Type} (h : SourceFile → List α) : List SourceFile → List α
  | [] => []
  | f :: fs => h f ++ collectAll h fs

/- ### Observations used to state the claims -/

/-- The stored build order, or `[]` when absent. -/
def orderOf (p : Package) : List Node := p.order.getD []

/-- Index of the first occurrence of a node in a list (length when
absent). -/
def idxOfN : List Node → Node → Nat
  | [], _ => 0
  | x :: xs, n => if x = n then 0 else idxOfN xs n + 1

/-- `a` occurs in `l` strictly before `b`. -/
def precedesB (l : List Node) (a b : Node) : Bool :=
  decide (a ∈ l) && decide (idxOfN l a < idxOfN l b)

/-- Whether a node is a `Schema` node. -/
def isSchemaNode : Node → Bool
  | .Schema _ => true
  | _ => false

/-- A constraint either is not `Foreign` or carries a `ref_table` whose
schema is present. -/
def foreignRefResolvedB : TableConstraint → Bool
  | .Foreign _ _ rt _ _ _ => rt.schema.isSome
  | _ => true

/-- The package holds a table named `t` carrying a `Foreign` constraint
whose `ref_table` is `rt`. -/
def hasForeignRefB (p : Package) (t rt : ObjectName) : Bool :=
  p.tables.any (fun tb =>
    decide (tb.name = t) &&
      (tb.constraints.getD []).any (fun c =>
        match c with
        | .Foreign _ _ r _ _ _ => decide (r = rt)
        | _ => false))

/-- Some `Foreign` constraint of the package references a table that
matches no table of the package. -/
def unresolvedForeignB (p : Package) : Bool :=
  p.tables.any (fun t =>
    (t.constraints.getD []).any (fun c =>
      match c with
      | .Foreign _ _ rt _ _ _ => !(p.tables.any (fun t2 => decide (t2.name = rt)))
      | _ => false))

/- ### Concrete packages used by the claims -/

/-- The referencing table of the spec's scenario C: `orders` with one
column and a foreign key to `customers.id`. -/
def ordersTable : TableDefinition :=
  { name := { schema := some "public", name := "orders" },
    columns := [{ name := "customer_id", sql_type := "int", nullable := false,
                  default_value := none }],
    constraints := some [TableConstraint.Foreign "fk_customer" ["customer_id"]
      { schema := some "public", name := "customers" } ["id"] none none] }

/-- The referenced table of the spec's scenario C: `customers(id)`. -/
def customersTable : TableDefinition :=
  { name := { schema := some "public", name := "customers" },
    columns := [{ name := "id", sql_type := "int", nullable := false,
                  default_value := none }],
    constraints := none }

/-- A wider `customers` table, `customers(id, x, y)`. -/
def customersWide : TableDefinition :=
  { name := { schema := some "public", name := "customers" },
    columns := [{ name := "id", sql_type := "int", nullable := false,
                  default_value := none },
                { name := "x", sql_type := "int", nullable := false,
                  default_value := none },
                { name := "y", sql_type := "int", nullable := false,
                  default_value := none }],
    constraints := none }

/-- The spec's scenario A table: `app.users(id, name)`. -/
def usersTable : TableDefinition :=
  { name := { schema := some "app", name := "users" },
    columns := [{ name := "id", sql_type := "int", nullable := false,
                  default_value := none },
                { name := "name", sql_type := "varchar(100)", nullable := true,
                  default_value := none }],
    constraints := none }

/-- The spec's scenario C package: `orders` declared first, referencing
`customers`. -/
def scenarioC : Package := { Package.new with tables := [ordersTable, customersTable] }

/-- `orders` referencing the wider `customers(id, x, y)` table. -/
def scenarioCE : Package := { Package.new with tables := [ordersTable, customersWide] }

/-- The spec's scenario A package: the single table `app.users` and its
schema. -/
def pkgSingle : Package :=
  { Package.new with schemas := [{ name := "app" }], tables := [usersTable] }

/-- A package whose only table carries a foreign key to a table that is
not in the package. -/
def pkgUnresolved : Package := { Package.new with tables := [ordersTable] }

/-- A package holding one function whose qualified name has no schema. -/
def pkgFnNoSchema : Package :=
  { Package.new with
    functions := [{ name := { schema := none, name := "get_users" },
                    arguments := [], return_type := "int", language := "sql",
                    body := "SELECT 1" }] }

/-- A package already holding the `public` schema in upper case. -/
def pkgUpperPublic : Package :=
  { Package.new with schemas := [{ name := "PUBLIC" }] }

/-- A project manifest with default schema `app`. -/
def projApp : Project := { default_schema := "app" }

/-- A two-node graph with a genuine cycle, built directly against the
graph interface. -/
def cycGraph : DependencyGraph :=
  { nodes := [Node.Table "a", Node.Table "b"],
    edges := [{ src := Node.Table "a", dst := Node.Table "b", weight := 10 },
              { src := Node.Table "b", dst := Node.Table "a", weight := 10 }] }

/-- A concrete connection description (never consulted by the placeholder
planner). -/
def connExample : ConnectionString :=
  { database := some "db", host := some "localhost", user := some "u",
    password := none, tls_mode := false }

/-- Source files for the assembler: a good file, a file with a lexical
error, a non-sql file, and a second good file after the failure. -/
def fileGoodA : SourceFile :=
  { path := "a.sql", ext := some "sql",
    outcome := .parsed [GenStatement.Table usersTable] }

def fileBadLex : SourceFile :=
  { path := "bad.sql", ext := some "sql",
    outcome := .lexError "CREATE TABL users;" 1 7 11 }

def fileNotSql : SourceFile :=
  { path := "readme.md", ext := some "md",
    outcome := .ioError "unused" }

def fileGoodB : SourceFile :=
  { path := "b.sql", ext := some "sql",
    outcome := .parsed [GenStatement.Table customersTable] }

/- ### Helper lemmas -/

/-- `generate_dependency_graph` as a two-way branch on the two validation
checks. -/
theorem gen_graph_eq (p : Package) :
    p.generate_dependency_graph =
      (if p.packageGraph.hasCycleB then
        (.error (.GenerationError "Circular reference detected"), p)
       else if p.packageGraph.unresolvedB then
        (.error (.GenerationError "Unresolved dependencies detected"), p)
       else
        (.ok (), { p with order := some p.packageGraph.topological_sort })) := by
  cases hc : p.packageGraph.hasCycleB <;>
    cases hu : p.packageGraph.unresolvedB <;>
      simp [Package.generate_dependency_graph, DependencyGraph.validate, hc, hu]

/- ### The claims -/

/-- Claim C1: the spec requires `plan(declared, declared, profile)` to be
empty (ignoring always-run scripts), but the source's planner
(`Project::generate_changeset`, gen.rs lines 452-454) ignores all of its
inputs and returns the single placeholder instruction `AddColumn`; the
change set is therefore never empty, in particular when planning a
package against itself. -/
theorem c1_generate_changeset_placeholder :
    (∀ (p : GenProject) (c : ConnectionString) (pr : GenPublishProfile),
        p.generate_changeset c pr = .ok [ChangeInstruction.AddColumn]) ∧
    (∀ (p : GenProject) (c : ConnectionString) (pr : GenPublishProfile),
        p.generate_changeset c pr ≠ .ok []) := by
  refine ⟨fun p c pr => rfl, fun p c pr h => ?_⟩
  simp [GenProject.generate_changeset] at h

/-- Claim C2: `generate_dependency_graph` returns `Ok` exactly when the
constructed graph has no cycle and every edge destination was added as a
node; a cyclic graph validates as `CircularReference` and the method then
bails with `GenerationError "Circular reference detected"`; an unresolved
dependency makes it bail with `GenerationError "Unresolved dependencies
detected"`. -/
theorem c2_generate_dependency_graph_valid_iff :
    (∀ p : Package,
        ((p.generate_dependency_graph).1 = .ok () ↔
          (p.packageGraph.hasCycleB = false ∧ p.packageGraph.unresolvedB = false))) ∧
    (∀ g : DependencyGraph, g.hasCycleB = true → g.validate = .CircularReference) ∧
    (∀ p : Package, p.packageGraph.hasCycleB = true →
        (p.generate_dependency_graph).1 =
          .error (.GenerationError "Circular reference detected")) ∧
    (∀ p : Package, p.packageGraph.hasCycleB = false →
        p.packageGraph.unresolvedB = true →
        (p.generate_dependency_graph).1 =
          .error (.GenerationError "Unresolved dependencies detected")) := by
  refine ⟨fun p => ?_, fun g h => ?_, fun p hc => ?_, fun p hc hu => ?_⟩
  · rw [gen_graph_eq]
    cases hc : p.packageGraph.hasCycleB <;>
      cases hu : p.packageGraph.unresolvedB <;> simp
  · simp [DependencyGraph.validate, h]
  · rw [gen_graph_eq]
    simp [hc]
  · rw [gen_graph_eq]
    simp [hc, hu]

/-- Sanity instances for claim C2: the unresolved package really makes
`generate_dependency_graph` bail with the unresolved-dependencies message,
and the cyclic graph really validates as a circular reference. -/
theorem c2_instances :
    (pkgUnresolved.generate_dependency_graph).1 =
        .error (.GenerationError "Unresolved dependencies detected") ∧
      cycGraph.validate = .CircularReference ∧
      cycGraph.hasCycleB = true := by
  refine ⟨by rfl, by decide, by decide⟩

/-- Claim C5 fails on the code: for the single-table package of the
spec's scenario A, the constructed graph holds no `Schema` node and no
edge pointing at one (package.rs lines 260-280 add only column and
constraint edges, despite the comment announcing a schema edge), and the
resulting order is `[Table, Column id, Column name]` — the schema node
the claim expects first is absent. -/
theorem c5_no_schema_edge :
    pkgSingle.packageGraph.nodes.all (fun n => !(isSchemaNode n)) = true ∧
    pkgSingle.packageGraph.edges.all (fun e => !(isSchemaNode e.dst)) = true ∧
    (pkgSingle.generate_dependency_graph).1 = .ok () ∧
    (pkgSingle.generate_dependency_graph).2.order =
      some [Node.Table "app.users", Node.Column "app.users.id",
            Node.Column "app.users.name"] := by
  refine ⟨by decide, by decide, by rfl, by decide⟩

/-- Claim C9 fails on the code: `Package::validate` (package.rs lines
249-252) is a stub that returns `Ok(())` even for a package holding a
`Foreign` constraint whose `ref_table` matches no table. -/
theorem c9_validate_stub :
    unresolvedForeignB pkgUnresolved = true ∧
    Package.validate pkgUnresolved = .ok () := by
  exact ⟨by decide, rfl⟩

/-- Claim C10: when `generate_dependency_graph` bails (circular reference
or unresolved dependencies) the package is returned unchanged — every
collection and the prior `order` are kept — and the order is assigned
exactly on the success path, where all entity collections are also kept. -/
theorem c10_error_leaves_package_unchanged :
    ∀ p : Package,
      (∀ e : PsqlpackError,
        (p.generate_dependency_graph).1 = .error e →
          (p.generate_dependency_graph).2 = p) ∧
      ((p.generate_dependency_graph).1 = .ok () →
          (p.generate_dependency_graph).2 =
            { p with order := some p.packageGraph.topological_sort }) := by
  intro p
  rw [gen_graph_eq]
  cases hc : p.packageGraph.hasCycleB <;>
    cases hu : p.packageGraph.unresolvedB <;> simp

/-- Sanity instance for claim C10: on the unresolved package the failing
call leaves every field untouched. -/
theorem c10_instance :
    (pkgUnresolved.generate_dependency_graph).2 = pkgUnresolved := by
  decide

/-- After `setTableDefaults` the table's schema is present. -/
theorem setTableDefaults_schema_isSome (d : String) (t : TableDefinition) :
    (setTableDefaults d t).name.schema.isSome = true := by
  unfold setTableDefaults
  cases h : t.name.schema <;> simp [h]

/-- After `setConstraintDefault` a `Foreign` constraint's `ref_table` has
a schema. -/
theorem setConstraintDefault_resolved (d : String) (c : TableConstraint) :
    foreignRefResolvedB (setConstraintDefault d c) = true := by
  cases c with
  | Primary n cols ps => rfl
  | Foreign n cols rt rcols od ou =>
      cases h : rt.schema <;> simp [setConstraintDefault, h, foreignRefResolvedB]

/-- After `setTableDefaults` every `Foreign` constraint of the table has a
resolved `ref_table`. -/
theorem setTableDefaults_constraints_resolved (d : String) (t : TableDefinition) :
    ((setTableDefaults d t).constraints.getD []).all foreignRefResolvedB = true := by
  unfold setTableDefaults
  cases hn : t.name.schema <;> cases hc : t.constraints <;>
    simp [hn, hc, List.all_map, Function.comp] <;>
      exact fun c _ => setConstraintDefault_resolved d c

/-- Claim C3 as the code has it: after `set_defaults` every table's
schema is resolved (absent schemas get the project default) and so is
every `Foreign.ref_table`; the `functions` and `types` collections are
not touched, so their absent schemas stay absent. -/
theorem c3_set_defaults_tables_only :
    ∀ (p : Package) (proj : Project),
      ((p.set_defaults proj).tables.all (fun t => t.name.schema.isSome) = true) ∧
      ((p.set_defaults proj).tables.all
          (fun t => (t.constraints.getD []).all foreignRefResolvedB) = true) ∧
      ((p.set_defaults proj).functions = p.functions) ∧
      ((p.set_defaults proj).types = p.types) := by
  intro p proj
  refine ⟨?_, ?_, rfl, rfl⟩
  · simp only [Package.set_defaults, List.all_map, Function.comp]
    exact List.all_eq_true.2
      (fun t _ => setTableDefaults_schema_isSome proj.default_schema t)
  · simp only [Package.set_defaults, List.all_map, Function.comp]
    exact List.all_eq_true.2
      (fun t _ => setTableDefaults_constraints_resolved proj.default_schema t)

/-- Counterexample to claim C3 as stated: a package holding one function
with an absent schema still has that function unresolved after
`set_defaults` — the normalization pass only touches tables
(package.rs lines 205-219). -/
theorem c3_counterexample_function_untouched :
    ((pkgFnNoSchema.set_defaults projApp).functions.all
        (fun f => f.name.schema.isSome)) = false := by
  decide

/-- Claim C6: after `set_defaults` a schema named `public` (compared
ASCII-case-insensitively) is always present; when one already existed —
under any ASCII casing — the schema collection is returned unchanged, and
only otherwise is a single `public` entry appended. -/
theorem c6_public_schema_ensured :
    ∀ (p : Package) (proj : Project),
      ((p.set_defaults proj).schemas.any
          (fun s => eqIgnoreAsciiCase "public" s.name) = true) ∧
      (p.schemas.any (fun s => eqIgnoreAsciiCase "public" s.name) = true →
        (p.set_defaults proj).schemas = p.schemas) ∧
      (p.schemas.any (fun s => eqIgnoreAsciiCase "public" s.name) = false →
        (p.set_defaults proj).schemas = p.schemas ++ [{ name := "public" }]) := by
  intro p proj
  have hp : eqIgnoreAsciiCase "public" "public" = true := by decide
  cases h : p.schemas.any (fun s => eqIgnoreAsciiCase "public" s.name) with
  | true =>
      refine ⟨?_, fun _ => ?_, fun hf => by simp [h] at hf⟩
      · simp [Package.set_defaults, h]
      · simp [Package.set_defaults, h]
  | false =>
      refine ⟨?_, fun ht => by simp [h] at ht, fun _ => ?_⟩
      · simp [Package.set_defaults, h, List.any_append, hp]
      · simp [Package.set_defaults, h]

/-- Sanity instance for claim C6: a schema spelled `PUBLIC` already
counts, so nothing is appended. -/
theorem c6_instance_upper_public :
    (pkgUpperPublic.set_defaults projApp).schemas = [{ name := "PUBLIC" }] := by
  decide

/-- Adding a node never changes the edge list. -/
theorem add_node_edges (g : DependencyGraph) (n : Node) :
    (g.add_node n).edges = g.edges := by
  unfold DependencyGraph.add_node
  split <;> rfl

/-- Folding `add_edge` over a list appends exactly the mapped edges. -/
theorem foldl_add_edge_edges {α : Type} (mk : α → Node) (w : Nat) (n : Node) :
    ∀ (xs : List α) (g : DependencyGraph),
      (xs.foldl (fun g c => g.add_edge n (mk c) w) g).edges
        = g.edges ++ xs.map (fun c => { src := n, dst := mk c, weight := w }) := by
  intro xs
  induction xs with
  | nil => intro g; simp
  | cons x xs ih =>
      intro g
      rw [List.foldl_cons, ih]
      simp [DependencyGraph.add_edge]

/-- Claim C4, amended: a `Foreign` constraint contributes exactly one
edge of weight 1.0 to each of its local columns and one edge of weight
1.1 to each referenced column of the referenced table; in the spec's
scenario C (declared as orders then customers) the resulting order does
place `customers` strictly before `orders`.  The universal consequence
"for any FK, T2 precedes T1" is not kept (see the counterexample). -/
theorem c4_foreign_constraint_edges :
    (∀ (nm : String) (columns : List String) (rt : ObjectName) (rcols : List String)
        (od ou : Option String) (g : DependencyGraph) (table : String),
      ((TableConstraint.Foreign nm columns rt rcols od ou).generate_dependencies
          g table).2.edges
        = g.edges
          ++ columns.map (fun c =>
              { src := Node.Constraint (table ++ ("." ++ nm)),
                dst := Node.Column (table ++ ("." ++ c)), weight := 10 })
          ++ rcols.map (fun c =>
              { src := Node.Constraint (table ++ ("." ++ nm)),
                dst := Node.Column (rt.toStr ++ ("." ++ c)), weight := 11 })) ∧
    ((scenarioC.generate_dependency_graph).1 = .ok ()) ∧
    (precedesB (orderOf (scenarioC.generate_dependency_graph).2)
        (Node.Table "public.customers") (Node.Table "public.orders") = true) := by
  refine ⟨?_, by rfl, by decide⟩
  intro nm columns rt rcols od ou g table
  simp only [TableConstraint.generate_dependencies]
  rw [foldl_add_edge_edges (fun c => Node.Column (rt.toStr ++ ("." ++ c))) 11,
    foldl_add_edge_edges (fun c => Node.Column (table ++ ("." ++ c))) 10,
    add_node_edges]

/-- Counterexample to claim C4's consequence: with the same foreign key
`orders.customer_id -> customers.id` but a wider `customers(id, x, y)`
table, the produced order places `orders` before `customers`, so the
referenced table does not precede the referencing one for every foreign
key. -/
theorem c4_counterexample_wide_customers :
    (hasForeignRefB scenarioCE
        { schema := some "public", name := "orders" }
        { schema := some "public", name := "customers" } = true) ∧
    ((scenarioCE.generate_dependency_graph).1 = .ok ()) ∧
    (precedesB (orderOf (scenarioCE.generate_dependency_graph).2)
        (Node.Table "public.customers") (Node.Table "public.orders") = false) := by
  refine ⟨by decide, by rfl, by decide⟩

/- ### Round-trip of the artifact codec (claim C7) -/

/-- A string starts with itself followed by anything. -/
theorem strStartsWith_append (pre t : String) : strStartsWith (pre ++ t) pre = true := by
  obtain ⟨lp⟩ := pre
  obtain ⟨lt⟩ := t
  show List.isPrefixOf lp (lp ++ lt) = true
  exact List.isPrefixOf_iff_prefix.mpr (List.prefix_append lp lt)

theorem notPre_fn_ext (t : String) :
    strStartsWith ("functions/" ++ t) "extensions/" = false := by
  obtain ⟨l⟩ := t; rfl

theorem notPre_sch_ext (t : String) :
    strStartsWith ("schemas/" ++ t) "extensions/" = false := by
  obtain ⟨l⟩ := t; rfl

theorem notPre_sch_fn (t : String) :
    strStartsWith ("schemas/" ++ t) "functions/" = false := by
  obtain ⟨l⟩ := t; rfl

theorem notPre_scr_ext (t : String) :
    strStartsWith ("scripts/" ++ t) "extensions/" = false := by
  obtain ⟨l⟩ := t; rfl

theorem notPre_scr_fn (t : String) :
    strStartsWith ("scripts/" ++ t) "functions/" = false := by
  obtain ⟨l⟩ := t; rfl

theorem notPre_scr_sch (t : String) :
    strStartsWith ("scripts/" ++ t) "schemas/" = false := by
  obtain ⟨l⟩ := t; rfl

theorem notPre_tab_ext (t : String) :
    strStartsWith ("tables/" ++ t) "extensions/" = false := by
  obtain ⟨l⟩ := t; rfl

theorem notPre_tab_fn (t : String) :
    strStartsWith ("tables/" ++ t) "functions/" = false := by
  obtain ⟨l⟩ := t; rfl

theorem notPre_tab_sch (t : String) :
    strStartsWith ("tables/" ++ t) "schemas/" = false := by
  obtain ⟨l⟩ := t; rfl

theorem notPre_tab_scr (t : String) :
    strStartsWith ("tables/" ++ t) "scripts/" = false := by
  obtain ⟨l⟩ := t; rfl

theorem notPre_typ_ext (t : String) :
    strStartsWith ("types/" ++ t) "extensions/" = false := by
  obtain ⟨l⟩ := t; rfl

theorem notPre_typ_fn (t : String) :
    strStartsWith ("types/" ++ t) "functions/" = false := by
  obtain ⟨l⟩ := t; rfl

theorem notPre_typ_sch (t : String) :
    strStartsWith ("types/" ++ t) "schemas/" = false := by
  obtain ⟨l⟩ := t; rfl

theorem notPre_typ_scr (t : String) :
    strStartsWith ("types/" ++ t) "scripts/" = false := by
  obtain ⟨l⟩ := t; rfl

theorem notPre_typ_tab (t : String) :
    strStartsWith ("types/" ++ t) "tables/" = false := by
  obtain ⟨l⟩ := t; rfl

/-- Directory markers are zero-size and skipped by the reading loop. -/
theorem readEntries_dir (acc : ReadState) (nm : String) (rest : List ArchiveEntry) :
    readEntries acc ({ ename := nm, content := .empty } :: rest)
      = readEntries acc rest := rfl

/-- A successful single read continues the loop with the new state. -/
theorem readEntries_cons_ok (acc acc2 : ReadState) (e : ArchiveEntry)
    (es : List ArchiveEntry) (h : readEntry acc e = .ok acc2) :
    readEntries acc (e :: es) = readEntries acc2 es := by
  simp [readEntries, h]

theorem readEntry_ext (acc : ReadState) (x : ExtensionDefinition) :
    readEntry acc { ename := "extensions/" ++ (x.name ++ ".json"), content := .ext x }
      = .ok { acc with extensions := acc.extensions ++ [x] } := by
  simp [readEntry, ArchiveEntry.isEmptyEntry, strStartsWith_append]

theorem readEntry_fn (acc : ReadState) (x : FunctionDefinition) :
    readEntry acc { ename := "functions/" ++ (x.name.toStr ++ ".json"), content := .fn x }
      = .ok { acc with functions := acc.functions ++ [x] } := by
  simp [readEntry, ArchiveEntry.isEmptyEntry, strStartsWith_append, notPre_fn_ext]

theorem readEntry_sch (acc : ReadState) (x : SchemaDefinition) :
    readEntry acc { ename := "schemas/" ++ (x.name ++ ".json"), content := .sch x }
      = .ok { acc with schemas := acc.schemas ++ [x] } := by
  simp [readEntry, ArchiveEntry.isEmptyEntry, strStartsWith_append,
    notPre_sch_ext, notPre_sch_fn]

theorem readEntry_scr (acc : ReadState) (x : ScriptDefinition) :
    readEntry acc { ename := "scripts/" ++ (x.name ++ ".json"), content := .scr x }
      = .ok { acc with scripts := acc.scripts ++ [x] } := by
  simp [readEntry, ArchiveEntry.isEmptyEntry, strStartsWith_append,
    notPre_scr_ext, notPre_scr_fn, notPre_scr_sch]

theorem readEntry_tab (acc : ReadState) (x : TableDefinition) :
    readEntry acc { ename := "tables/" ++ (x.name.toStr ++ ".json"), content := .tab x }
      = .ok { acc with tables := acc.tables ++ [x] } := by
  simp [readEntry, ArchiveEntry.isEmptyEntry, strStartsWith_append,
    notPre_tab_ext, notPre_tab_fn, notPre_tab_sch, notPre_tab_scr]

theorem readEntry_typ (acc : ReadState) (x : TypeDefinition) :
    readEntry acc { ename := "types/" ++ (x.name.toStr ++ ".json"), content := .typ x }
      = .ok { acc with types := acc.types ++ [x] } := by
  simp [readEntry, ArchiveEntry.isEmptyEntry, strStartsWith_append,
    notPre_typ_ext, notPre_typ_fn, notPre_typ_sch, notPre_typ_scr, notPre_typ_tab]

theorem readEntry_order (acc : ReadState) (o : List Node) :
    readEntry acc { ename := "order.json", content := .ord o }
      = .ok { acc with order := some o } := rfl

theorem readEntries_ext_block :
    ∀ (xs : List ExtensionDefinition) (acc : ReadState) (rest : List ArchiveEntry),
      readEntries acc
          ((xs.map (fun e =>
            { ename := "extensions/" ++ (e.name ++ ".json"),
              content := EntryContent.ext e })) ++ rest)
        = readEntries { acc with extensions := acc.extensions ++ xs } rest := by
  intro xs
  induction xs with
  | nil => intro acc rest; simp
  | cons x xs ih =>
      intro acc rest
      simp only [List.map_cons, List.cons_append]
      rw [readEntries_cons_ok _ _ _ _ (readEntry_ext acc x), ih]
      simp [List.append_assoc]

theorem readEntries_fn_block :
    ∀ (xs : List FunctionDefinition) (acc : ReadState) (rest : List ArchiveEntry),
      readEntries acc
          ((xs.map (fun f =>
            { ename := "functions/" ++ (f.name.toStr ++ ".json"),
              content := EntryContent.fn f })) ++ rest)
        = readEntries { acc with functions := acc.functions ++ xs } rest := by
  intro xs
  induction xs with
  | nil => intro acc rest; simp
  | cons x xs ih =>
      intro acc rest
      simp only [List.map_cons, List.cons_append]
      rw [readEntries_cons_ok _ _ _ _ (readEntry_fn acc x), ih]
      simp [List.append_assoc]

theorem readEntries_sch_block :
    ∀ (xs : List SchemaDefinition) (acc : ReadState) (rest : List ArchiveEntry),
      readEntries acc
          ((xs.map (fun s =>
            { ename := "schemas/" ++ (s.name ++ ".json"),
              content := EntryContent.sch s })) ++ rest)
        = readEntries { acc with schemas := acc.schemas ++ xs } rest := by
  intro xs
  induction xs with
  | nil => intro acc rest; simp
  | cons x xs ih =>
      intro acc rest
      simp only [List.map_cons, List.cons_append]
      rw [readEntries_cons_ok _ _ _ _ (readEntry_sch acc x), ih]
      simp [List.append_assoc]

theorem readEntries_scr_block :
    ∀ (xs : List ScriptDefinition) (acc : ReadState) (rest : List ArchiveEntry),
      readEntries acc
          ((xs.map (fun s =>
            { ename := "scripts/" ++ (s.name ++ ".json"),
              content := EntryContent.scr s })) ++ rest)
        = readEntries { acc with scripts := acc.scripts ++ xs } rest := by
  intro xs
  induction xs with
  | nil => intro acc rest; simp
  | cons x xs ih =>
      intro acc rest
      simp only [List.map_cons, List.cons_append]
      rw [readEntries_cons_ok _ _ _ _ (readEntry_scr acc x), ih]
      simp [List.append_assoc]

theorem readEntries_tab_block :
    ∀ (xs : List TableDefinition) (acc : ReadState) (rest : List ArchiveEntry),
      readEntries acc
          ((xs.map (fun t =>
            { ename := "tables/" ++ (t.name.toStr ++ ".json"),
              content := EntryContent.tab t })) ++ rest)
        = readEntries { acc with tables := acc.tables ++ xs } rest := by
  intro xs
  induction xs with
  | nil => intro acc rest; simp
  | cons x xs ih =>
      intro acc rest
      simp only [List.map_cons, List.cons_append]
      rw [readEntries_cons_ok _ _ _ _ (readEntry_tab acc x), ih]
      simp [List.append_assoc]

theorem readEntries_typ_block :
    ∀ (xs : List TypeDefinition) (acc : ReadState) (rest : List ArchiveEntry),
      readEntries acc
          ((xs.map (fun t =>
            { ename := "types/" ++ (t.name.toStr ++ ".json"),
              content := EntryContent.typ t })) ++ rest)
        = readEntries { acc with types := acc.types ++ xs } rest := by
  intro xs
  induction xs with
  | nil => intro acc rest; simp
  | cons x xs ih =>
      intro acc rest
      simp only [List.map_cons, List.cons_append]
      rw [readEntries_cons_ok _ _ _ _ (readEntry_typ acc x), ih]
      simp [List.append_assoc]

/-- Claim C7: writing a Package with `write_to` and reading the archive
back with the `from_path` loop returns the Package exactly — every
collection in its original order (hence membership equality per kind) and
the `order` field preserved exactly. -/
theorem c7_write_read_roundtrip :
    ∀ p : Package, Package.from_archive p.write_to = .ok p := by
  intro p
  obtain ⟨exts, fns, schs, scrs, tabs, typs, ord⟩ := p
  unfold Package.from_archive Package.write_to
  simp only [List.cons_append, List.singleton_append, List.append_assoc, List.nil_append]
  rw [readEntries_dir, readEntries_ext_block, readEntries_dir, readEntries_fn_block,
    readEntries_dir, readEntries_sch_block, readEntries_dir, readEntries_scr_block,
    readEntries_dir, readEntries_tab_block, readEntries_dir, readEntries_typ_block]
  cases ord with
  | none => simp [readEntries, ReadState.init]
  | some o =>
      rw [readEntries_cons_ok _ _ _ _ (readEntry_order _ o)]
      simp [readEntries, ReadState.init]

/- ### Error aggregation in the assembler (claim C8) -/

/-- Folding `push_table` over a statement list appends its tables. -/
theorem foldl_push_table :
    ∀ (stmts : List GenStatement) (pr : GenProject),
      stmts.foldl (fun pr s => match s with | .Table t => pr.push_table t) pr
        = { tables := pr.tables ++ stmts.map (fun s => match s with | .Table t => t) } := by
  intro stmts
  induction stmts with
  | nil => intro pr; simp
  | cons s ss ih =>
      intro pr
      cases s with
      | Table t =>
          rw [List.foldl_cons, ih]
          simp [GenProject.push_table]

/-- One file-loop iteration appends exactly the file's tables and the
file's errors. -/
theorem processFile_eq (st : GenProject × List DacpacError) (f : SourceFile) :
    processFile st f
      = ({ tables := st.1.tables ++ fileTables f }, st.2 ++ fileErrors f) := by
  obtain ⟨pr, errs⟩ := st
  unfold processFile fileTables fileErrors
  split
  · simp
  · cases f.outcome <;> simp [foldl_push_table]

/-- The whole file loop appends, in file order, every file's tables and
every file's errors. -/
theorem foldl_processFile :
    ∀ (files : List SourceFile) (pr : GenProject) (errs : List DacpacError),
      files.foldl processFile (pr, errs)
        = ({ tables := pr.tables ++ collectAll fileTables files },
           errs ++ collectAll fileErrors files) := by
  intro files
  induction files with
  | nil => intro pr errs; simp [collectAll]
  | cons f fs ih =>
      intro pr errs
      rw [List.foldl_cons, processFile_eq, ih]
      simp [collectAll]

/-- Claim C8: a lexical or parse failure in one file does not stop the
loop — the errors and tables collected are exactly the concatenation over
all files, in order — and when any file-level errors exist
`package_project` returns all of them together and produces no artifact. -/
theorem c8_errors_aggregated :
    ∀ (files : List SourceFile) (config : ProjectConfig),
      ((files.foldl processFile ({ tables := [] }, [])).2
          = collectAll fileErrors files) ∧
      ((files.foldl processFile ({ tables := [] }, [])).1.tables
          = collectAll fileTables files) ∧
      (collectAll fileErrors files ≠ [] →
        Dacpac.package_project files config = .error (collectAll fileErrors files)) := by
  intro files config
  have h := foldl_processFile files { tables := [] } []
  refine ⟨by simp [h], by simp [h], fun hne => ?_⟩
  unfold Dacpac.package_project
  rw [h]
  simp only [List.nil_append]
  cases hcoll : collectAll fileErrors files with
  | nil => exact absurd hcoll hne
  | cons e es => simp

/-- Sanity instance for claim C8: with a failing file between two good
ones, the good files are still parsed, the package call returns exactly
the one error, and no artifact entries are produced. -/
theorem c8_instance :
    (([fileGoodA, fileBadLex, fileNotSql, fileGoodB].foldl processFile
        ({ tables := [] }, [])).1.tables = [usersTable, customersTable]) ∧
    (Dacpac.package_project [fileGoodA, fileBadLex, fileNotSql, fileGoodB]
        { default_schema := "app" }
      = .error [.SyntaxError "bad.sql" "CREATE TABL users;" 1 7 11]) := by
  refine ⟨by decide, by rfl⟩

end Psqlpack
